import Mathlib

/-!
Shallow embedding of `action_agent.py` (Action Agent for AWS Bedrock).

The Python program is a thin FastAPI shim: two pure helper tools
(`log_action`, `validate_request`), a Bedrock response formatter
(`format_bedrock_response`), a parameter-array parser
(`parse_bedrock_parameters`), the main POST handler
(`bedrock_action_handler`), and a health endpoint (`health_check`).

JSON values decoded from request bodies are modelled by an inductive
`Json` type; Python dicts are modelled as insertion-ordered association
lists (`List (String × Json)`), with `dictGetD` embedding `dict.get`
and `dictInsert` embedding `d[key] = value` assignment (replace the
value in place when the key exists, else append).
-/

namespace ActionAgent

/-- A decoded JSON value (the result of FastAPI's `request.json()` /
Python's `json.loads`). -/
inductive Json where
  | null
  | bool (b : Bool)
  | num (n : Int)
  | str (s : String)
  | arr (elems : List Json)
  | obj (fields : List (String × Json))

/-- The keys of a Python dict modelled as an association list. -/
def dictKeys (d : List (String × Json)) : List String :=
  d.map Prod.fst

/-- Python `d.get(k, dflt)` on a dict modelled as an association list. -/
def dictGetD (d : List (String × Json)) (k : String) (dflt : Json) : Json :=
  match d.find? (fun kv => kv.1 == k) with
  | some kv => kv.2
  | none => dflt

/-- Python `d[k]` lookup that may fail (`none` when the key is absent). -/
def dictLookup (d : List (String × Json)) (k : String) : Option Json :=
  (d.find? (fun kv => kv.1 == k)).map Prod.snd

/-- Replace the entry for key `k` with `(k, v)`, leaving other entries
unchanged (the per-entry step of an in-place dict update). -/
def overwriteEntry (k : String) (v : Json) (kv : String × Json) : String × Json :=
  if kv.1 == k then (k, v) else kv

/-- Python `d[k] = v` dict assignment: when the key is present its value
is replaced in place, otherwise the pair is appended (insertion order). -/
def dictInsert (d : List (String × Json)) (k : String) (v : Json) : List (String × Json) :=
  if d.any (fun kv => kv.1 == k) then
    d.map (overwriteEntry k v)
  else
    d ++ [(k, v)]

/-- `log_action(action, target, result)`: the returned confirmation string
(the `print` side effect is not modelled). -/
def log_action (action : String) (target : String) (result : String) : String :=
  "Logged: " ++ action ++ " on " ++ target ++ ": " ++ result

/-- The dict returned by `validate_request`: the Python code returns either
`{"valid": False, "error": ...}` or `{"valid": True}`; the optional `error`
field models presence of the `"error"` key. -/
structure ValidationResult where
  valid : Bool
  error : Option String
  deriving DecidableEq

/-- The fixed `required_fields` table inside `validate_request`
(`dict.get` on it: `some` for the three known kinds, `none` otherwise). -/
def required_fields (request_type : String) : Option (List String) :=
  if request_type == "create_user" then some ["email", "first_name", "last_name"]
  else if request_type == "grant_access" then some ["user_id", "resource_id"]
  else if request_type == "assign_group" then some ["user_id", "group_id"]
  else none

/-- `validate_request(request_type, data)` from `action_agent.py`
(lines 32-49): unknown kind → invalid with an "Unknown request_type"
error; otherwise the required fields missing from `data`'s keys are
collected and, if any, reported in a "Missing fields" error; else valid. -/
def validate_request (request_type : String) (data : List (String × Json)) : ValidationResult :=
  match required_fields request_type with
  | none =>
    { valid := false, error := some ("Unknown request_type: " ++ request_type) }
  | some fields =>
    let missing := fields.filter (fun f => !(dictKeys data).contains f)
    if !missing.isEmpty then
      { valid := false, error := some ("Missing fields: " ++ String.intercalate ", " missing) }
    else
      { valid := true, error := none }

/-- In the source, `MSGRAPH_MCP_URL` is assigned the hard-coded literal
below; the `os.getenv` lines are commented out, so the value does not
depend on the process environment. -/
def MSGRAPH_MCP_URL : String :=
  "http://100.28.229.240:8000/mcp"

/-- The module-level configuration check
`if not MSGRAPH_MCP_URL: raise RuntimeError(...)` run at import time.
`env` models the process environment (variable name → value); the source
never consults it because the `os.getenv` call is commented out, so the
truthiness test is on the hard-coded literal. `Except.error` models the
`RuntimeError` aborting startup. -/
def startup_url_check (_env : String → Option String) : Except String Unit :=
  if MSGRAPH_MCP_URL == "" then
    Except.error "PINGONE_MCP_URL and MSGRAPH_MCP_URL must be set in environment"
  else
    Except.ok ()

/-- `format_bedrock_response(action_group, function, response_body)`:
builds the nested AWS Bedrock envelope. `action_group` and `function`
arrive from `body.get(...)` so they are arbitrary JSON values; the
response body placed under TEXT/body is the text produced by the agent
(or the error string). -/
def format_bedrock_response (action_group : Json) (function : Json)
    (response_body : String) : Json :=
  Json.obj
    [("messageVersion", Json.str "1.0"),
     ("response", Json.obj
       [("actionGroup", action_group),
        ("function", function),
        ("functionResponse", Json.obj
          [("responseBody", Json.obj
            [("TEXT", Json.obj
              [("body", Json.str response_body)])])])])]

/-- One element of the Bedrock `parameters` array, a dict accessed with
`param.get("name")` / `param.get("value")`; `none` models an absent key.
The declared type in the source is `List[Dict[str, str]]`, so both
values are strings when present. -/
structure BedrockParam where
  name : Option String
  value : Option String

/-- The body of the `for param in parameters:` loop of
`parse_bedrock_parameters(parameters)` from `action_agent.py`
(lines 148-160). `json_loads` models Python's `json.loads` on a string:
`some` is the decoded value, `none` models a raised `JSONDecodeError`
(caught in the source, which then keeps the raw string). An element is
processed only when `if name and value:` holds, i.e. both keys are
present with non-empty strings; `result[name] = ...` is dict assignment,
so a later element with the same name overwrites an earlier one. -/
def parse_step (json_loads : String → Option Json)
    (result : List (String × Json)) (param : BedrockParam) : List (String × Json) :=
  match param.name, param.value with
  | some name, some value =>
    if name != "" && value != "" then
      dictInsert result name ((json_loads value).getD (Json.str value))
    else
      result
  | _, _ => result

/-- The whole of `parse_bedrock_parameters`: fold the loop body over the
parameter list, starting from the empty dict `result = {}`. -/
def parse_bedrock_parameters (json_loads : String → Option Json)
    (parameters : List BedrockParam) : List (String × Json) :=
  parameters.foldl (parse_step json_loads) []

/-- Outcome of one `POST /` call on `bedrock_action_handler`:
either an HTTP response produced by the handler (a `JSONResponse` with
its status code and JSON content), or an exception that escaped the
handler (which FastAPI's default machinery turns into a 500, with no
Bedrock envelope). -/
inductive HandlerResult where
  | response (status : Nat) (body : Json)
  | uncaught (exc : String)

/-- `bedrock_action_handler(request)` from `action_agent.py`
(lines 163-225), as a function of the two external events of a call:

* `body?` is the outcome of `await request.json()`: `none` when decoding
  raised (malformed body), `some j` for the decoded JSON value `j`;
* `agent_result` summarises everything after `body` is bound —
  parameter parsing, prompt building and `agent.run(prompt)` plus the
  rendering of the success `JSONResponse` — `Except.ok r` when it
  produced the result text `r`, `Except.error e` when some exception
  with text `e` was raised there (the prompt string handed to the
  opaque agent is not itself observed by any property below).

When decoding raised, control reaches `except Exception as e:` with the
local `body` never assigned, so `body.get("actionGroup", "unknown")`
raises an `UnboundLocalError` that escapes the handler. When the body
decoded to a non-dict JSON value, `body.get` raises an
`AttributeError` inside `try`, and the `except` block's own `body.get`
raises it again, escaping the handler. Otherwise the handler returns a
`JSONResponse` (default status 200 on success, explicit
`status_code=200` on the error path). -/
def bedrock_action_handler (body? : Option Json)
    (agent_result : Except String String) : HandlerResult :=
  match body? with
  | none =>
    HandlerResult.uncaught "UnboundLocalError: cannot access local variable body"
  | some (Json.obj body) =>
    let action_group := dictGetD body "actionGroup" (Json.str "unknown")
    let function_name := dictGetD body "function" (Json.str "unknown")
    match agent_result with
    | Except.ok result =>
      HandlerResult.response 200 (format_bedrock_response action_group function_name result)
    | Except.error e =>
      HandlerResult.response 200 (format_bedrock_response action_group function_name ("Error: " ++ e))
  | some _ =>
    HandlerResult.uncaught "AttributeError: object has no attribute get"

/-- `health_check()` (`GET /health`): FastAPI serialises the returned
dict with default status 200. `num_tools` is `len(all_tools)`, which
depends on how many MCP tools were listed at startup. -/
def health_check (num_tools : Nat) : Nat × Json :=
  (200, Json.obj
    [("status", Json.str "healthy"),
     ("tools", Json.num num_tools),
     ("msgraph_mcp", Json.str MSGRAPH_MCP_URL)])

/-- Specification-side characterisation used to state the behaviour of
`parse_bedrock_parameters`: the values, in order, of the parameter-array
elements that the parser retains for the name `n` — those whose `name`
key is present, equal to `n` and non-empty, and whose `value` key is
present and non-empty. -/
def retainedValues (parameters : List BedrockParam) (n : String) : List String :=
  parameters.filterMap (fun p =>
    match p.name, p.value with
    | some m, some v => if m = n ∧ m ≠ "" ∧ v ≠ "" then some v else none
    | _, _ => none)

/-! ## Helper lemmas on the dict model -/

theorem dictLookup_cons (kv : String × Json) (d : List (String × Json)) (k : String) :
    dictLookup (kv :: d) k = if kv.1 = k then some kv.2 else dictLookup d k := by
  cases h : (kv.1 == k) with
  | true => simp [dictLookup, List.find?_cons, h, beq_iff_eq.mp h]
  | false =>
    have hne : kv.1 ≠ k := by
      intro he
      rw [he] at h
      simp at h
    simp [dictLookup, List.find?_cons, h, hne]

theorem dictLookup_append_single_self (d : List (String × Json)) (k : String) (v : Json)
    (h : ∀ kv ∈ d, kv.1 ≠ k) : dictLookup (d ++ [(k, v)]) k = some v := by
  induction d with
  | nil => simp [dictLookup_cons]
  | cons kv d ih =>
    have h1 : kv.1 ≠ k := h kv (List.mem_cons_self kv d)
    rw [List.cons_append, dictLookup_cons]
    simp only [h1, if_false]
    exact ih (fun x hx => h x (List.mem_cons_of_mem kv hx))

theorem dictLookup_append_single_other (d : List (String × Json)) (k k' : String) (v : Json)
    (h : k' ≠ k) : dictLookup (d ++ [(k, v)]) k' = dictLookup d k' := by
  induction d with
  | nil => simp [dictLookup_cons, Ne.symm h, dictLookup]
  | cons kv d ih =>
    rw [List.cons_append, dictLookup_cons, dictLookup_cons]
    by_cases h1 : kv.1 = k'
    · simp [h1]
    · simp [h1, ih]

theorem overwriteEntry_self (k : String) (v : Json) (kv : String × Json)
    (h : kv.1 = k) : overwriteEntry k v kv = (k, v) := by
  simp [overwriteEntry, h]

theorem overwriteEntry_other (k : String) (v : Json) (kv : String × Json)
    (h : kv.1 ≠ k) : overwriteEntry k v kv = kv := by
  simp [overwriteEntry, h]

theorem dictLookup_map_overwrite_self (d : List (String × Json)) (k : String) (v : Json) :
    dictLookup (d.map (overwriteEntry k v)) k =
      if d.any (fun kv => kv.1 == k) then some v else none := by
  induction d with
  | nil => rfl
  | cons kv d ih =>
    rw [List.map_cons, List.any_cons]
    by_cases h : kv.1 = k
    · rw [overwriteEntry_self k v kv h, dictLookup_cons]
      simp [h]
    · rw [overwriteEntry_other k v kv h, dictLookup_cons, if_neg h, ih]
      have hb : (kv.1 == k) = false := by simp [h]
      rw [hb, Bool.false_or]

theorem dictLookup_map_overwrite_other (d : List (String × Json)) (k k' : String) (v : Json)
    (h : k' ≠ k) :
    dictLookup (d.map (overwriteEntry k v)) k' = dictLookup d k' := by
  induction d with
  | nil => rfl
  | cons kv d ih =>
    rw [List.map_cons]
    by_cases h1 : kv.1 = k
    · rw [overwriteEntry_self k v kv h1, dictLookup_cons, dictLookup_cons, ih, h1]
      simp [Ne.symm h]
    · rw [overwriteEntry_other k v kv h1, dictLookup_cons, dictLookup_cons, ih]

theorem dictLookup_dictInsert (d : List (String × Json)) (k k' : String) (v : Json) :
    dictLookup (dictInsert d k v) k' = if k' = k then some v else dictLookup d k' := by
  unfold dictInsert
  by_cases hany : d.any (fun kv => kv.1 == k) = true
  · rw [if_pos hany]
    by_cases hk : k' = k
    · rw [hk, dictLookup_map_overwrite_self, if_pos hany, if_pos rfl]
    · rw [dictLookup_map_overwrite_other d k k' v hk, if_neg hk]
  · rw [if_neg hany]
    by_cases hk : k' = k
    · subst hk
      rw [if_pos rfl]
      refine dictLookup_append_single_self d k' v ?_
      intro kv hkv he
      refine hany ?_
      rw [List.any_eq_true]
      exact ⟨kv, hkv, by simp [he]⟩
    · rw [dictLookup_append_single_other d k k' v hk, if_neg hk]

theorem dictLookup_foldl_parse_step (jl : String → Option Json) (params : List BedrockParam)
    (acc : List (String × Json)) (n : String) :
    dictLookup (params.foldl (parse_step jl) acc) n =
      match (retainedValues params n).getLast? with
      | some v => some ((jl v).getD (Json.str v))
      | none => dictLookup acc n := by
  induction params generalizing acc with
  | nil => rfl
  | cons p rest ih =>
    rw [List.foldl_cons, ih]
    cases hn : p.name with
    | none =>
      simp [retainedValues, List.filterMap_cons, parse_step, hn]
    | some m =>
      cases hv : p.value with
      | none =>
        simp [retainedValues, List.filterMap_cons, parse_step, hn, hv]
      | some vl =>
        by_cases hme : m = ""
        · subst hme
          simp [retainedValues, List.filterMap_cons, parse_step, hn, hv]
        by_cases hve : vl = ""
        · subst hve
          simp [retainedValues, List.filterMap_cons, parse_step, hn, hv]
        have hcond : (m != "" && vl != "") = true := by simp [hme, hve]
        have hstep : parse_step jl acc p = dictInsert acc m ((jl vl).getD (Json.str vl)) := by
          simp [parse_step, hn, hv, hcond]
        by_cases hmn : m = n
        · subst hmn
          have hrt : retainedValues (p :: rest) m = vl :: retainedValues rest m := by
            simp [retainedValues, List.filterMap_cons, hn, hv, hme, hve]
          rw [hrt, hstep]
          cases hrv : retainedValues rest m with
          | nil =>
            simp only [hrv, List.getLast?_nil, List.getLast?_singleton]
            rw [dictLookup_dictInsert, if_pos rfl]
          | cons x xs =>
            simp only [hrv, List.getLast?_cons_cons]
            cases hxl : (x :: xs).getLast? with
            | some v => rfl
            | none => exact absurd hxl (by simp)
        · have hrt : retainedValues (p :: rest) n = retainedValues rest n := by
            simp [retainedValues, List.filterMap_cons, hn, hv, hmn]
          rw [hrt, hstep]
          cases (retainedValues rest n).getLast? with
          | some v => rfl
          | none =>
            simp only []
            rw [dictLookup_dictInsert, if_neg (Ne.symm hmn)]

/-! ## Claim theorems -/

/-- C1: for every request kind in the fixed table (`create_user`,
`grant_access`, `assign_group`, i.e. every kind on which
`required_fields` yields a field list) and every parameter mapping,
`validate_request` reports valid if and only if every required field for
that kind is a key of the mapping; when any required field is absent it
reports invalid with a "Missing fields" error. -/
theorem validate_request_known_kind_iff (request_type : String) (fields : List String)
    (data : List (String × Json)) (h : required_fields request_type = some fields) :
    ((validate_request request_type data).valid = true ↔
      ∀ f ∈ fields, f ∈ dictKeys data) ∧
    ((∃ f ∈ fields, f ∉ dictKeys data) →
      (validate_request request_type data).valid = false ∧
      ∃ rest, (validate_request request_type data).error =
        some ("Missing fields: " ++ rest)) := by
  have hiff : (fields.filter (fun f => !(dictKeys data).contains f)).isEmpty = true ↔
      (∀ f ∈ fields, f ∈ dictKeys data) := by
    simp [List.isEmpty_iff]
  cases hm : (fields.filter (fun f => !(dictKeys data).contains f)).isEmpty with
  | true =>
    have hall : ∀ f ∈ fields, f ∈ dictKeys data := hiff.mp hm
    have hv : validate_request request_type data = ⟨true, none⟩ := by
      simp [validate_request, h, hm]
      exact hall
    refine ⟨?_, ?_⟩
    · rw [hv]
      exact iff_of_true rfl hall
    · rintro ⟨f, hf, hnf⟩
      exact absurd (hall f hf) hnf
  | false =>
    have hex : ∃ f ∈ fields, f ∉ dictKeys data := by
      by_contra hno
      push_neg at hno
      rw [hiff.mpr hno] at hm
      exact Bool.noConfusion hm
    have hv : validate_request request_type data =
        ⟨false, some ("Missing fields: " ++ String.intercalate ", "
          (fields.filter (fun f => !(dictKeys data).contains f)))⟩ := by
      simp [validate_request, h, hm]
      exact hex
    refine ⟨?_, fun _ => ⟨by rw [hv], ⟨_, by rw [hv]⟩⟩⟩
    rw [hv]
    refine iff_of_false (by simp) ?_
    intro hall
    rw [hiff.mpr hall] at hm
    exact Bool.noConfusion hm

/-- Witness for C1: `create_user` is in the table, and the theorem applies
to the empty mapping. -/
theorem validate_request_known_kind_iff_witness :
    required_fields "create_user" = some ["email", "first_name", "last_name"] ∧
    (((validate_request "create_user" ([] : List (String × Json))).valid = true ↔
        ∀ f ∈ ["email", "first_name", "last_name"],
          f ∈ dictKeys ([] : List (String × Json))) ∧
      ((∃ f ∈ ["email", "first_name", "last_name"],
          f ∉ dictKeys ([] : List (String × Json))) →
        (validate_request "create_user" ([] : List (String × Json))).valid = false ∧
        ∃ rest, (validate_request "create_user" ([] : List (String × Json))).error =
          some ("Missing fields: " ++ rest))) :=
  ⟨rfl, validate_request_known_kind_iff "create_user" ["email", "first_name", "last_name"] [] rfl⟩

/-- C2: for every request-kind string not in the fixed table and every
parameter mapping whatsoever, `validate_request` reports invalid with an
error naming the unknown request type; it never reports valid. -/
theorem validate_request_unknown_kind (request_type : String) (data : List (String × Json))
    (h : required_fields request_type = none) :
    (validate_request request_type data).valid = false ∧
    (validate_request request_type data).error =
      some ("Unknown request_type: " ++ request_type) := by
  simp [validate_request, h]

/-- Witness for C2: `unknown_kind` is not in the table, and the theorem
applies to a mapping containing every field of every known kind. -/
theorem validate_request_unknown_kind_witness :
    required_fields "unknown_kind" = none ∧
    ((validate_request "unknown_kind"
        [("email", Json.null), ("first_name", Json.null), ("last_name", Json.null),
         ("user_id", Json.null), ("resource_id", Json.null), ("group_id", Json.null)]).valid
        = false ∧
      (validate_request "unknown_kind"
        [("email", Json.null), ("first_name", Json.null), ("last_name", Json.null),
         ("user_id", Json.null), ("resource_id", Json.null), ("group_id", Json.null)]).error
        = some ("Unknown request_type: " ++ "unknown_kind")) :=
  ⟨rfl, validate_request_unknown_kind "unknown_kind"
    [("email", Json.null), ("first_name", Json.null), ("last_name", Json.null),
     ("user_id", Json.null), ("resource_id", Json.null), ("group_id", Json.null)] rfl⟩

/-- C3: the two concrete examples from the spec: a `create_user` request
with email, first and last name validates, and one with only the email is
invalid with an error string naming both `first_name` and `last_name`. -/
theorem validate_request_spec_examples :
    validate_request "create_user"
      [("email", Json.str "a@b.com"), ("first_name", Json.str "A"),
       ("last_name", Json.str "B")] = ⟨true, none⟩ ∧
    (validate_request "create_user" [("email", Json.str "a@b.com")]).valid = false ∧
    ∃ s1 s2 s3,
      (validate_request "create_user" [("email", Json.str "a@b.com")]).error =
        some (s1 ++ "first_name" ++ (s2 ++ ("last_name" ++ s3))) :=
  ⟨by decide, by decide, "Missing fields: ", ", ", "", by decide⟩

/-- C4: evaluation at the failing input. When decoding of the request
body raises (`body? = none`), the handler does NOT return a 200 Bedrock
envelope: the `except` block's reference to the never-assigned local
`body` raises an `UnboundLocalError` that escapes the handler, whatever
the agent would have returned. This contradicts the claim that any
exception during body decoding is caught and answered with a
Bedrock-shaped 200 response. -/
theorem bedrock_handler_decode_error_escapes (agent_result : Except String String) :
    bedrock_action_handler none agent_result =
      HandlerResult.uncaught "UnboundLocalError: cannot access local variable body" :=
  rfl

/-- C5: for every request body that decodes to a JSON object and every
agent result text, the success response is exactly the nested Bedrock
envelope, with `actionGroup` and `function` echoed from the body
(`dictGetD` is `body.get`, so each defaults to the string "unknown" when
the key is absent) and HTTP status 200. -/
theorem bedrock_handler_success_envelope (body : List (String × Json)) (result : String) :
    bedrock_action_handler (some (Json.obj body)) (Except.ok result) =
      HandlerResult.response 200 (Json.obj
        [("messageVersion", Json.str "1.0"),
         ("response", Json.obj
           [("actionGroup", dictGetD body "actionGroup" (Json.str "unknown")),
            ("function", dictGetD body "function" (Json.str "unknown")),
            ("functionResponse", Json.obj
              [("responseBody", Json.obj
                [("TEXT", Json.obj
                  [("body", Json.str result)])])])])]) :=
  rfl

/-- C6 counterexample: the liveness payload is not exactly
`{"status": "healthy"}` — it also carries `tools` and `msgraph_mcp`
keys (shown here at a concrete tool count of 2). -/
theorem health_check_not_status_only :
    health_check 2 ≠ (200, Json.obj [("status", Json.str "healthy")]) := by
  intro h
  have h2 := congrArg Prod.snd h
  simp [health_check] at h2

/-- C6 (amended): a GET request to the liveness endpoint returns HTTP
status 200 with a payload whose `status` key is `"healthy"`, alongside a
`tools` count and the `msgraph_mcp` URL. -/
theorem health_check_payload (num_tools : Nat) :
    (health_check num_tools).1 = 200 ∧
    (health_check num_tools).2 = Json.obj
      [("status", Json.str "healthy"),
       ("tools", Json.num num_tools),
       ("msgraph_mcp", Json.str "http://100.28.229.240:8000/mcp")] :=
  ⟨rfl, rfl⟩

/-- C7: for every action name, target, and result string, `log_action`
returns a confirmation string containing the action, the target, and the
result verbatim as substrings. -/
theorem log_action_contains_verbatim (action target result : String) :
    (∃ s1 s2, log_action action target result = s1 ++ action ++ s2) ∧
    (∃ s1 s2, log_action action target result = s1 ++ target ++ s2) ∧
    (∃ s1 s2, log_action action target result = s1 ++ result ++ s2) := by
  refine ⟨⟨"Logged: ", " on " ++ target ++ ": " ++ result, ?_⟩,
    ⟨"Logged: " ++ action ++ " on ", ": " ++ result, ?_⟩,
    ⟨"Logged: " ++ action ++ " on " ++ target ++ ": ", "", ?_⟩⟩
  · simp [log_action, String.append_assoc]
  · simp [log_action, String.append_assoc]
  · simp [log_action, String.append_assoc, String.append_empty]

/-- C8: evaluation at the failing input. With the URL environment
variable entirely unset, the startup configuration check still passes,
because the source assigns `MSGRAPH_MCP_URL` a hard-coded non-empty
literal (the `os.getenv` call is commented out), so the
`if not MSGRAPH_MCP_URL` guard can never fire. This contradicts the
claim (and the code's own RuntimeError message) that absence of the URL
aborts startup. -/
theorem startup_check_passes_with_unset_env :
    startup_url_check (fun _ => none) = Except.ok () :=
  rfl

/-- C9: for every parameter list, `parse_bedrock_parameters` has an entry
for name `n` exactly when some element carries that non-empty name with a
present, non-empty value; the entry's value comes from the last such
element, JSON-decoded when `json.loads` succeeds on it and kept as the
raw string otherwise (`retainedValues` lists exactly the retained
elements' values in order, so empty-string values are dropped and the
later of two same-named elements wins). -/
theorem parse_bedrock_parameters_lookup (json_loads : String → Option Json)
    (parameters : List BedrockParam) (n : String) :
    dictLookup (parse_bedrock_parameters json_loads parameters) n =
      (retainedValues parameters n).getLast?.map
        (fun v => (json_loads v).getD (Json.str v)) := by
  rw [parse_bedrock_parameters, dictLookup_foldl_parse_step]
  cases (retainedValues parameters n).getLast? with
  | some v => rfl
  | none => rfl

/-- C10: for every request-kind string and parameter mapping, the result
of `validate_request` carries an error string exactly when its valid flag
is false, and on success the result is exactly `{"valid": True}` with no
error field. -/
theorem validate_request_error_iff_invalid (request_type : String)
    (data : List (String × Json)) :
    ((validate_request request_type data).error.isSome ↔
      (validate_request request_type data).valid = false) ∧
    ((validate_request request_type data).valid = true →
      validate_request request_type data = ⟨true, none⟩) := by
  cases hrf : required_fields request_type with
  | none => simp [validate_request, hrf]
  | some fields =>
    have hiff : (fields.filter (fun f => !(dictKeys data).contains f)).isEmpty = true ↔
        (∀ f ∈ fields, f ∈ dictKeys data) := by
      simp [List.isEmpty_iff]
    cases hm : (fields.filter (fun f => !(dictKeys data).contains f)).isEmpty with
    | true =>
      have hall : ∀ f ∈ fields, f ∈ dictKeys data := hiff.mp hm
      have hv : validate_request request_type data = ⟨true, none⟩ := by
        simp [validate_request, hrf, hm]
        exact hall
      rw [hv]
      simp
    | false =>
      have hex : ∃ f ∈ fields, f ∉ dictKeys data := by
        by_contra hno
        push_neg at hno
        rw [hiff.mpr hno] at hm
        exact Bool.noConfusion hm
      have hv : validate_request request_type data =
          ⟨false, some ("Missing fields: " ++ String.intercalate ", "
            (fields.filter (fun f => !(dictKeys data).contains f)))⟩ := by
        simp [validate_request, hrf, hm]
        exact hex
      rw [hv]
      simp

/-- Witness for C10 (its second conjunct is an implication): the
characterisation evaluated at a concrete kind and mapping. -/
theorem validate_request_error_iff_invalid_witness :
    (((validate_request "grant_access" ([] : List (String × Json))).error.isSome ↔
      (validate_request "grant_access" ([] : List (String × Json))).valid = false) ∧
     ((validate_request "grant_access" ([] : List (String × Json))).valid = true →
      validate_request "grant_access" ([] : List (String × Json)) = ⟨true, none⟩)) :=
  validate_request_error_iff_invalid "grant_access" []

end ActionAgent
